import Mathlib

/-!
Shallow embedding of the OpenDiablo2 map-renderer Viewport
(d2core/d2map/d2maprenderer/viewport.go): conversions between world,
orthogonal and screen coordinate space, visibility culling, the
translation stack and split-screen alignment.  Go float64 values are
modelled as exact rationals, Go ints as integers with Go
truncate-toward-zero division (Int.tdiv), and the panic on popping an
empty translation stack as an Option returning none.
-/

namespace D2

/-- Modelled from the spec: the consumed d2common.Rectangle type has
integer left, top, width, height with derived right = left + width and
bottom = top + height; its source file is outside this package. -/
structure Rectangle where
  Left : Int
  Top : Int
  Width : Int
  Height : Int
deriving DecidableEq, Repr

/-- Right edge of a rectangle, left + width. -/
def Rectangle.Right (r : Rectangle) : Int := r.Left + r.Width

/-- Bottom edge of a rectangle, top + height. -/
def Rectangle.Bottom (r : Rectangle) : Int := r.Top + r.Height

/-- Modelled from the spec: the Camera collaborator exposes a single
position query returning two real-valued coordinates; its source file is
outside this package. -/
structure Camera where
  x : ℚ
  y : ℚ
deriving DecidableEq, Repr

/-- GetPosition returns the camera position. -/
def Camera.GetPosition (c : Camera) : ℚ × ℚ := (c.x, c.y)

/-- A translation offset in orthogonal space, the worldTrans struct. -/
structure worldTrans where
  x : ℚ
  y : ℚ
deriving DecidableEq, Repr

/-- Alignment-mode constant center = 0. -/
def center : Int := 0

/-- Alignment-mode constant left = 1. -/
def left : Int := 1

/-- Alignment-mode constant right = 2. -/
def right : Int := 2

/-- The Viewport struct: default and current screen rectangles, the
translation stack with its current cumulative value, an optional camera
(nil pointer modelled as none) and the alignment mode. -/
structure Viewport where
  defaultScreenRect : Rectangle
  screenRect : Rectangle
  transStack : List worldTrans
  transCurrent : worldTrans
  camera : Option Camera
  align : Int
deriving DecidableEq, Repr

/-- NewViewport creates a new Viewport; remaining fields take the Go zero
values (empty stack, zero translation, nil camera, align = center = 0). -/
def NewViewport (x y width height : Int) : Viewport :=
  ⟨⟨x, y, width, height⟩, ⟨x, y, width, height⟩, [], ⟨0, 0⟩, none, center⟩

/-- SetCamera sets the current camera to the given value. -/
def Viewport.SetCamera (v : Viewport) (c : Camera) : Viewport :=
  ⟨v.defaultScreenRect, v.screenRect, v.transStack, v.transCurrent, some c, v.align⟩

/-- OrthoToWorld returns the world position for orthogonal coordinates. -/
def Viewport.OrthoToWorld (_v : Viewport) (x y : ℚ) : ℚ × ℚ :=
  ((x / 80 + y / 40) / 2, (y / 40 - x / 80) / 2)

/-- WorldToOrtho returns the orthogonal position for world coordinates. -/
def Viewport.WorldToOrtho (_v : Viewport) (x y : ℚ) : ℚ × ℚ :=
  ((x - y) * 80, (x + y) * 40)

/-- getCameraOffset: camera position (or the origin when no camera is
bound) minus half the current screen rectangle size, the halving being Go
integer division on the int rectangle fields. -/
def Viewport.getCameraOffset (v : Viewport) : ℚ × ℚ :=
  let cam : ℚ × ℚ :=
    match v.camera with
    | some c => c.GetPosition
    | none => (0, 0)
  (cam.1 - ((Int.tdiv v.screenRect.Width 2 : Int) : ℚ),
   cam.2 - ((Int.tdiv v.screenRect.Height 2 : Int) : ℚ))

/-- ScreenToOrtho returns the orthogonal position for screen coordinates. -/
def Viewport.ScreenToOrtho (v : Viewport) (x y : Int) : ℚ × ℚ :=
  ((x : ℚ) + v.getCameraOffset.1 - (v.screenRect.Left : ℚ),
   (y : ℚ) + v.getCameraOffset.2 - (v.screenRect.Top : ℚ))

/-- OrthoToScreen returns the screen position for orthogonal coordinates
as two ints, flooring each component. -/
def Viewport.OrthoToScreen (v : Viewport) (x y : ℚ) : Int × Int :=
  (⌊x - v.getCameraOffset.1 + (v.screenRect.Left : ℚ)⌋,
   ⌊y - v.getCameraOffset.2 + (v.screenRect.Top : ℚ)⌋)

/-- OrthoToScreenF returns the screen position for orthogonal coordinates
as two float64s (sub-pixel precision preserved). -/
def Viewport.OrthoToScreenF (v : Viewport) (x y : ℚ) : ℚ × ℚ :=
  (x - v.getCameraOffset.1 + (v.screenRect.Left : ℚ),
   y - v.getCameraOffset.2 + (v.screenRect.Top : ℚ))

/-- WorldToScreen returns the screen space for world coordinates as two
integers, by composition through ortho space. -/
def Viewport.WorldToScreen (v : Viewport) (x y : ℚ) : Int × Int :=
  v.OrthoToScreen (v.WorldToOrtho x y).1 (v.WorldToOrtho x y).2

/-- WorldToScreenF returns the screen space for world coordinates as two
float64s, by composition through ortho space. -/
def Viewport.WorldToScreenF (v : Viewport) (x y : ℚ) : ℚ × ℚ :=
  v.OrthoToScreenF (v.WorldToOrtho x y).1 (v.WorldToOrtho x y).2

/-- ScreenToWorld returns the world position for screen coordinates, by
composition through ortho space. -/
def Viewport.ScreenToWorld (v : Viewport) (x y : Int) : ℚ × ℚ :=
  v.OrthoToWorld (v.ScreenToOrtho x y).1 (v.ScreenToOrtho x y).2

/-- IsOrthoRectVisible returns false if the given orthogonal rectangle is
outside the game screen, the bounds being the default screen rectangle. -/
def Viewport.IsOrthoRectVisible (v : Viewport) (x1 y1 x2 y2 : ℚ) : Bool :=
  let s1 := v.OrthoToScreen x1 y1
  let s2 := v.OrthoToScreen x2 y2
  !(decide (s1.1 ≥ v.defaultScreenRect.Width) || decide (s2.1 < 0) ||
    decide (s1.2 ≥ v.defaultScreenRect.Height) || decide (s2.2 < 0))

/-- IsTileVisible returns false if no part of the tile is within the game
screen, using a fixed plus-or-minus 3 tile horizontal span. -/
def Viewport.IsTileVisible (v : Viewport) (x y : ℚ) : Bool :=
  let o1 := v.WorldToOrtho (x - 3) y
  let o2 := v.WorldToOrtho (x + 3) y
  v.IsOrthoRectVisible o1.1 o1.2 o2.1 o2.2

/-- IsTileRectVisible returns false if none of the tile rects are within
the game screen; the extrema are computed in Go int arithmetic and then
converted to float64. -/
def Viewport.IsTileRectVisible (v : Viewport) (rect : Rectangle) : Bool :=
  let l : ℚ := (((rect.Left - rect.Bottom) * 80 : Int) : ℚ)
  let t : ℚ := (((rect.Left + rect.Top) * 40 : Int) : ℚ)
  let r : ℚ := (((rect.Right - rect.Top) * 80 : Int) : ℚ)
  let b : ℚ := (((rect.Right + rect.Bottom) * 40 : Int) : ℚ)
  v.IsOrthoRectVisible l t r b

/-- GetTranslationOrtho returns the current orthogonal translation. -/
def Viewport.GetTranslationOrtho (v : Viewport) : ℚ × ℚ :=
  (v.transCurrent.x, v.transCurrent.y)

/-- GetTranslationScreen returns the current translation in screen space. -/
def Viewport.GetTranslationScreen (v : Viewport) : Int × Int :=
  v.OrthoToScreen v.transCurrent.x v.transCurrent.y

/-- PushTranslationOrtho appends the current translation to the stack and
adds the offsets to the current translation, returning the viewport. -/
def Viewport.PushTranslationOrtho (v : Viewport) (x y : ℚ) : Viewport :=
  ⟨v.defaultScreenRect, v.screenRect, v.transStack ++ [v.transCurrent],
   ⟨v.transCurrent.x + x, v.transCurrent.y + y⟩, v.camera, v.align⟩

/-- PushTranslationWorld converts the world offset to ortho space and
pushes it. -/
def Viewport.PushTranslationWorld (v : Viewport) (x y : ℚ) : Viewport :=
  v.PushTranslationOrtho (v.WorldToOrtho x y).1 (v.WorldToOrtho x y).2

/-- PushTranslationScreen converts the screen offset to ortho space and
pushes it. -/
def Viewport.PushTranslationScreen (v : Viewport) (x y : Int) : Viewport :=
  v.PushTranslationOrtho (v.ScreenToOrtho x y).1 (v.ScreenToOrtho x y).2

/-- PopTranslation restores the current translation from the top of the
stack; the Go code panics on an empty stack, modelled by returning none. -/
def Viewport.PopTranslation (v : Viewport) : Option Viewport :=
  match v.transStack.getLast? with
  | none => none
  | some t =>
    some ⟨v.defaultScreenRect, v.screenRect, v.transStack.dropLast, t,
      v.camera, v.align⟩

/-- toLeft enters left-half alignment: half the default width, left edge
shifted by half the default width; a no-op when already in left mode. -/
def Viewport.toLeft (v : Viewport) : Viewport :=
  if v.align = left then v
  else
    ⟨v.defaultScreenRect,
      ⟨v.defaultScreenRect.Left + Int.tdiv v.defaultScreenRect.Width 2,
        v.screenRect.Top, Int.tdiv v.defaultScreenRect.Width 2,
        v.screenRect.Height⟩,
      v.transStack, v.transCurrent, v.camera, left⟩

/-- toRight enters right-half alignment: half the default width, left edge
left untouched; a no-op when already in right mode. -/
def Viewport.toRight (v : Viewport) : Viewport :=
  if v.align = right then v
  else
    ⟨v.defaultScreenRect,
      ⟨v.screenRect.Left, v.screenRect.Top,
        Int.tdiv v.defaultScreenRect.Width 2, v.screenRect.Height⟩,
      v.transStack, v.transCurrent, v.camera, right⟩

/-- resetAlign restores center alignment: default width and left edge;
a no-op when already in center mode. -/
def Viewport.resetAlign (v : Viewport) : Viewport :=
  if v.align = center then v
  else
    ⟨v.defaultScreenRect,
      ⟨v.defaultScreenRect.Left, v.screenRect.Top,
        v.defaultScreenRect.Width, v.screenRect.Height⟩,
      v.transStack, v.transCurrent, v.camera, center⟩

/-- An alignment transition, for reasoning about reachable states. -/
inductive AlignOp where
  | opLeft
  | opRight
  | opReset
deriving DecidableEq, Repr

/-- Apply one alignment transition. -/
def applyAlign (v : Viewport) : AlignOp → Viewport
  | .opLeft => v.toLeft
  | .opRight => v.toRight
  | .opReset => v.resetAlign

/-- Apply a sequence of alignment transitions in order. -/
def applyAligns (v : Viewport) (ops : List AlignOp) : Viewport :=
  ops.foldl applyAlign v

/-- Push a list of ortho translations in order. -/
def pushMany (v : Viewport) (ps : List (ℚ × ℚ)) : Viewport :=
  ps.foldl (fun w p => w.PushTranslationOrtho p.1 p.2) v

/-- Pop the translation stack n times, failing if any pop panics. -/
def popMany (v : Viewport) : Nat → Option Viewport
  | 0 => some v
  | n + 1 => v.PopTranslation.bind (fun w => popMany w n)

lemma isOrthoRectVisible_eq_false_iff (v : Viewport) (x1 y1 x2 y2 : ℚ) :
    v.IsOrthoRectVisible x1 y1 x2 y2 = false ↔
      (v.OrthoToScreen x1 y1).1 ≥ v.defaultScreenRect.Width ∨
      (v.OrthoToScreen x2 y2).1 < 0 ∨
      (v.OrthoToScreen x1 y1).2 ≥ v.defaultScreenRect.Height ∨
      (v.OrthoToScreen x2 y2).2 < 0 := by
  simp [Viewport.IsOrthoRectVisible]
  omega

/-- C5: OrthoToWorld and WorldToOrtho are exact algebraic inverses of each
other: round-tripping world through ortho space (and ortho through world
space) is the identity, for every viewport state. -/
theorem world_ortho_exact_inverses (v : Viewport) (x y : ℚ) :
    v.OrthoToWorld (v.WorldToOrtho x y).1 (v.WorldToOrtho x y).2 = (x, y) ∧
    v.WorldToOrtho (v.OrthoToWorld x y).1 (v.OrthoToWorld x y).2 = (x, y) := by
  constructor <;>
    simp only [Viewport.OrthoToWorld, Viewport.WorldToOrtho, Prod.mk.injEq] <;>
    constructor <;> ring

/-- C6: the world-to-screen, world-to-screen-float and screen-to-world
conversions are exactly the compositions of the world-to-ortho and
ortho-to-screen conversions. -/
theorem world_screen_compositions (v : Viewport) (x y : ℚ) (a b : Int) :
    v.WorldToScreen x y
        = v.OrthoToScreen (v.WorldToOrtho x y).1 (v.WorldToOrtho x y).2 ∧
    v.WorldToScreenF x y
        = v.OrthoToScreenF (v.WorldToOrtho x y).1 (v.WorldToOrtho x y).2 ∧
    v.ScreenToWorld a b
        = v.OrthoToWorld (v.ScreenToOrtho a b).1 (v.ScreenToOrtho a b).2 :=
  ⟨rfl, rfl, rfl⟩

/-- C7: IsOrthoRectVisible converts both corners with OrthoToScreen and
returns false exactly when the first corner is at or beyond the default
width or height or the second corner is below zero (half-open bounds); on
the default 800x600 viewport the ortho point mapping to screen (800, 0)
is reported not visible while the one mapping to (799, 0) is visible. -/
theorem isOrthoRectVisible_halfopen (v : Viewport) (x1 y1 x2 y2 : ℚ) :
    (v.IsOrthoRectVisible x1 y1 x2 y2 = false ↔
      (v.OrthoToScreen x1 y1).1 ≥ v.defaultScreenRect.Width ∨
      (v.OrthoToScreen x2 y2).1 < 0 ∨
      (v.OrthoToScreen x1 y1).2 ≥ v.defaultScreenRect.Height ∨
      (v.OrthoToScreen x2 y2).2 < 0) ∧
    (NewViewport 0 0 800 600).OrthoToScreen 400 (-300) = (800, 0) ∧
    (NewViewport 0 0 800 600).IsOrthoRectVisible 400 (-300) 400 (-300) = false ∧
    (NewViewport 0 0 800 600).OrthoToScreen 399 (-300) = (799, 0) ∧
    (NewViewport 0 0 800 600).IsOrthoRectVisible 399 (-300) 399 (-300) = true := by
  refine ⟨isOrthoRectVisible_eq_false_iff v x1 y1 x2 y2, ?_, ?_, ?_, ?_⟩ <;>
    simp [NewViewport, Viewport.IsOrthoRectVisible, Viewport.OrthoToScreen,
      Viewport.getCameraOffset] <;>
    norm_num [show Int.tdiv 800 2 = 400 from rfl, show Int.tdiv 600 2 = 300 from rfl]

/-- C8: the camera offset is the bound camera position (or the origin when
no camera is bound) minus half the current screenRect size under Go
integer division; on the default 800x600 viewport with no camera the
offset is (-400, -300) and OrthoToScreen 0 80 = (400, 380); in left
alignment the offset is computed from the halved current rectangle,
giving (-200, -300). -/
theorem getCameraOffset_spec (d r : Rectangle) (ts : List worldTrans)
    (tc : worldTrans) (al : Int) (c : Camera) :
    (Viewport.mk d r ts tc (some c) al).getCameraOffset
        = (c.x - ((Int.tdiv r.Width 2 : Int) : ℚ),
           c.y - ((Int.tdiv r.Height 2 : Int) : ℚ)) ∧
    (Viewport.mk d r ts tc none al).getCameraOffset
        = (0 - ((Int.tdiv r.Width 2 : Int) : ℚ),
           0 - ((Int.tdiv r.Height 2 : Int) : ℚ)) ∧
    (NewViewport 0 0 800 600).getCameraOffset = (-400, -300) ∧
    (NewViewport 0 0 800 600).OrthoToScreen 0 80 = (400, 380) ∧
    ((NewViewport 0 0 800 600).toLeft).getCameraOffset = (-200, -300) := by
  refine ⟨rfl, rfl, ?_, ?_, ?_⟩ <;>
    simp [NewViewport, Viewport.toLeft, Viewport.OrthoToScreen,
      Viewport.getCameraOffset, left, center] <;>
    norm_num [show Int.tdiv 800 2 = 400 from rfl, show Int.tdiv 600 2 = 300 from rfl,
      show Int.tdiv 400 2 = 200 from rfl]

/-- C9: screen-to-ortho is the exact algebraic inverse of ortho-to-screen:
round-tripping integer screen coordinates through ortho space is the
identity for both the integer and float ortho-to-screen variants; the
integer variant floors each component of the float variant (flooring, not
rounding or truncating, as the negative-fraction example shows); and the
ortho-to-screen-to-ortho round trip recovers each component within one
unit, the loss coming only from the flooring. -/
theorem screen_ortho_roundtrip (v : Viewport) (x y : ℚ) (a b : Int) :
    v.OrthoToScreen (v.ScreenToOrtho a b).1 (v.ScreenToOrtho a b).2 = (a, b) ∧
    v.OrthoToScreenF (v.ScreenToOrtho a b).1 (v.ScreenToOrtho a b).2
        = ((a : ℚ), (b : ℚ)) ∧
    v.OrthoToScreen x y
        = (⌊(v.OrthoToScreenF x y).1⌋, ⌊(v.OrthoToScreenF x y).2⌋) ∧
    x - 1 < (v.ScreenToOrtho (v.OrthoToScreen x y).1 (v.OrthoToScreen x y).2).1 ∧
    (v.ScreenToOrtho (v.OrthoToScreen x y).1 (v.OrthoToScreen x y).2).1 ≤ x ∧
    y - 1 < (v.ScreenToOrtho (v.OrthoToScreen x y).1 (v.OrthoToScreen x y).2).2 ∧
    (v.ScreenToOrtho (v.OrthoToScreen x y).1 (v.OrthoToScreen x y).2).2 ≤ y ∧
    (NewViewport 0 0 800 600).OrthoToScreen (-801/2) 80 = (-1, 380) := by
  have e1 : ((a : ℚ) + v.getCameraOffset.1 - (v.screenRect.Left : ℚ))
      - v.getCameraOffset.1 + (v.screenRect.Left : ℚ) = (a : ℚ) := by ring
  have e2 : ((b : ℚ) + v.getCameraOffset.2 - (v.screenRect.Top : ℚ))
      - v.getCameraOffset.2 + (v.screenRect.Top : ℚ) = (b : ℚ) := by ring
  have f1 := Int.floor_le (x - v.getCameraOffset.1 + (v.screenRect.Left : ℚ))
  have f2 := Int.sub_one_lt_floor (x - v.getCameraOffset.1 + (v.screenRect.Left : ℚ))
  have f3 := Int.floor_le (y - v.getCameraOffset.2 + (v.screenRect.Top : ℚ))
  have f4 := Int.sub_one_lt_floor (y - v.getCameraOffset.2 + (v.screenRect.Top : ℚ))
  refine ⟨?_, ?_, rfl, ?_, ?_, ?_, ?_, ?_⟩
  · simp only [Viewport.OrthoToScreen, Viewport.ScreenToOrtho, e1, e2,
      Int.floor_intCast]
  · simp only [Viewport.OrthoToScreenF, Viewport.ScreenToOrtho, e1, e2]
  · simp only [Viewport.OrthoToScreen, Viewport.ScreenToOrtho]
    linarith
  · simp only [Viewport.OrthoToScreen, Viewport.ScreenToOrtho]
    linarith
  · simp only [Viewport.OrthoToScreen, Viewport.ScreenToOrtho]
    linarith
  · simp only [Viewport.OrthoToScreen, Viewport.ScreenToOrtho]
    linarith
  · simp [NewViewport, Viewport.OrthoToScreen, Viewport.getCameraOffset]
    norm_num [show Int.tdiv 800 2 = 400 from rfl, show Int.tdiv 600 2 = 300 from rfl]

/-- C10: every coordinate conversion and visibility test ignores the
translation stack: replacing transStack and transCurrent in a viewport
changes no conversion or culling result. -/
theorem conversions_ignore_translation (v : Viewport) (ts : List worldTrans)
    (tc : worldTrans) (x y x1 y1 x2 y2 : ℚ) (a b : Int) (rect : Rectangle) :
    (Viewport.mk v.defaultScreenRect v.screenRect ts tc v.camera v.align).WorldToScreen x y
        = v.WorldToScreen x y ∧
    (Viewport.mk v.defaultScreenRect v.screenRect ts tc v.camera v.align).WorldToScreenF x y
        = v.WorldToScreenF x y ∧
    (Viewport.mk v.defaultScreenRect v.screenRect ts tc v.camera v.align).ScreenToWorld a b
        = v.ScreenToWorld a b ∧
    (Viewport.mk v.defaultScreenRect v.screenRect ts tc v.camera v.align).OrthoToScreen x y
        = v.OrthoToScreen x y ∧
    (Viewport.mk v.defaultScreenRect v.screenRect ts tc v.camera v.align).OrthoToScreenF x y
        = v.OrthoToScreenF x y ∧
    (Viewport.mk v.defaultScreenRect v.screenRect ts tc v.camera v.align).ScreenToOrtho a b
        = v.ScreenToOrtho a b ∧
    (Viewport.mk v.defaultScreenRect v.screenRect ts tc v.camera v.align).WorldToOrtho x y
        = v.WorldToOrtho x y ∧
    (Viewport.mk v.defaultScreenRect v.screenRect ts tc v.camera v.align).OrthoToWorld x y
        = v.OrthoToWorld x y ∧
    (Viewport.mk v.defaultScreenRect v.screenRect ts tc v.camera v.align).IsTileVisible x y
        = v.IsTileVisible x y ∧
    (Viewport.mk v.defaultScreenRect v.screenRect ts tc v.camera v.align).IsTileRectVisible rect
        = v.IsTileRectVisible rect ∧
    (Viewport.mk v.defaultScreenRect v.screenRect ts tc v.camera v.align).IsOrthoRectVisible x1 y1 x2 y2
        = v.IsOrthoRectVisible x1 y1 x2 y2 :=
  ⟨rfl, rfl, rfl, rfl, rfl, rfl, rfl, rfl, rfl, rfl, rfl⟩

lemma toLeft_align (v : Viewport) : v.toLeft.align = left := by
  unfold Viewport.toLeft
  split
  · assumption
  · rfl

lemma toRight_align (v : Viewport) : v.toRight.align = right := by
  unfold Viewport.toRight
  split
  · assumption
  · rfl

lemma resetAlign_align (v : Viewport) : v.resetAlign.align = center := by
  unfold Viewport.resetAlign
  split
  · assumption
  · rfl

lemma toLeft_of_align (v : Viewport) (h : v.align = left) : v.toLeft = v := by
  unfold Viewport.toLeft
  rw [if_pos h]

lemma toRight_of_align (v : Viewport) (h : v.align = right) : v.toRight = v := by
  unfold Viewport.toRight
  rw [if_pos h]

lemma resetAlign_of_align (v : Viewport) (h : v.align = center) :
    v.resetAlign = v := by
  unfold Viewport.resetAlign
  rw [if_pos h]

/-- C3: on the default 800x600 viewport, left mode yields screenRect
(left 400, width 400), right mode entered from center yields
(left 0, width 400), center mode restores (left 0, width 800) from either
half mode, and every alignment transition is idempotent on every state. -/
theorem alignment_concrete_and_idempotent (v : Viewport) :
    ((NewViewport 0 0 800 600).toLeft).screenRect = ⟨400, 0, 400, 600⟩ ∧
    ((NewViewport 0 0 800 600).toRight).screenRect = ⟨0, 0, 400, 600⟩ ∧
    ((NewViewport 0 0 800 600).toLeft.resetAlign).screenRect = ⟨0, 0, 800, 600⟩ ∧
    ((NewViewport 0 0 800 600).toRight.resetAlign).screenRect = ⟨0, 0, 800, 600⟩ ∧
    v.toLeft.toLeft = v.toLeft ∧
    v.toRight.toRight = v.toRight ∧
    v.resetAlign.resetAlign = v.resetAlign := by
  refine ⟨?_, ?_, ?_, ?_, toLeft_of_align _ (toLeft_align v),
    toRight_of_align _ (toRight_align v),
    resetAlign_of_align _ (resetAlign_align v)⟩ <;>
    simp [NewViewport, Viewport.toLeft, Viewport.toRight, Viewport.resetAlign,
      left, right, center] <;>
    decide

lemma pushTranslationOrtho_popTranslation (v : Viewport) (x y : ℚ) :
    (v.PushTranslationOrtho x y).PopTranslation = some v := by
  simp [Viewport.PushTranslationOrtho, Viewport.PopTranslation]

lemma popMany_succ (n : Nat) :
    ∀ w : Viewport, popMany w (n + 1) = (popMany w n).bind Viewport.PopTranslation := by
  induction n with
  | zero =>
    intro w
    simp [popMany]
  | succ n ih =>
    intro w
    show w.PopTranslation.bind (fun u => popMany u (n + 1)) = _
    cases hw : w.PopTranslation with
    | none => simp [popMany, hw]
    | some u =>
      simp only [popMany, hw, Option.some_bind]
      exact ih u

lemma pushMany_popMany (ps : List (ℚ × ℚ)) :
    ∀ v : Viewport, popMany (pushMany v ps) ps.length = some v := by
  induction ps with
  | nil =>
    intro v
    rfl
  | cons p ps ih =>
    intro v
    show popMany (pushMany (v.PushTranslationOrtho p.1 p.2) ps) (ps.length + 1) = some v
    rw [popMany_succ, ih, Option.some_bind, pushTranslationOrtho_popTranslation]

/-- C4: N pushes followed by N matched pops restore the previous
translation exactly, and when the stack started empty one further pop hits
the empty-stack panic, modelled as none. -/
theorem push_pop_balance (v : Viewport) (ps : List (ℚ × ℚ))
    (h : v.transStack = []) :
    (popMany (pushMany v ps) ps.length).map Viewport.GetTranslationOrtho
        = some (v.GetTranslationOrtho) ∧
    popMany (pushMany v ps) (ps.length + 1) = none := by
  constructor
  · rw [pushMany_popMany]
    rfl
  · rw [popMany_succ, pushMany_popMany, Option.some_bind]
    simp [Viewport.PopTranslation, h]

/-- Witness for C4 at the default viewport and a two-element push list. -/
theorem push_pop_balance_witness :
    (NewViewport 0 0 800 600).transStack = [] ∧
    ((popMany (pushMany (NewViewport 0 0 800 600) [((1 : ℚ), (2 : ℚ)), (3, 4)])
        (List.length [((1 : ℚ), (2 : ℚ)), (3, 4)])).map Viewport.GetTranslationOrtho
          = some ((NewViewport 0 0 800 600).GetTranslationOrtho) ∧
      popMany (pushMany (NewViewport 0 0 800 600) [((1 : ℚ), (2 : ℚ)), (3, 4)])
        (List.length [((1 : ℚ), (2 : ℚ)), (3, 4)] + 1) = none) :=
  ⟨rfl, push_pop_balance (NewViewport 0 0 800 600) [((1 : ℚ), (2 : ℚ)), (3, 4)] rfl⟩

lemma applyAligns_cons (v : Viewport) (op : AlignOp) (ops : List AlignOp) :
    applyAligns v (op :: ops) = applyAligns (applyAlign v op) ops :=
  rfl

lemma applyAlign_defaultScreenRect (v : Viewport) (op : AlignOp) :
    (applyAlign v op).defaultScreenRect = v.defaultScreenRect := by
  cases op <;>
    simp only [applyAlign, Viewport.toLeft, Viewport.toRight, Viewport.resetAlign] <;>
    split <;> rfl

lemma applyAligns_defaultScreenRect (ops : List AlignOp) :
    ∀ v : Viewport, (applyAligns v ops).defaultScreenRect = v.defaultScreenRect := by
  induction ops with
  | nil =>
    intro v
    rfl
  | cons op ops ih =>
    intro v
    rw [applyAligns_cons, ih, applyAlign_defaultScreenRect]

/-- Counterexample to C1: two viewports identical except for the alignment
mode (and the screenRect fields the mode derives) disagree on
IsOrthoRectVisible at the ortho rectangle (300, 0, 300, 0): the
center-aligned viewport reports it visible, the left-aligned one does
not, because OrthoToScreen folds in the current aligned screenRect. -/
theorem culling_differs_across_alignment :
    ((NewViewport 0 0 800 600).toLeft).defaultScreenRect
        = (NewViewport 0 0 800 600).defaultScreenRect ∧
    ((NewViewport 0 0 800 600).toLeft).transStack
        = (NewViewport 0 0 800 600).transStack ∧
    ((NewViewport 0 0 800 600).toLeft).transCurrent
        = (NewViewport 0 0 800 600).transCurrent ∧
    ((NewViewport 0 0 800 600).toLeft).camera
        = (NewViewport 0 0 800 600).camera ∧
    (NewViewport 0 0 800 600).IsOrthoRectVisible 300 0 300 0 = true ∧
    ((NewViewport 0 0 800 600).toLeft).IsOrthoRectVisible 300 0 300 0 = false := by
  refine ⟨rfl, rfl, rfl, rfl, ?_, ?_⟩ <;>
    simp [NewViewport, Viewport.toLeft, Viewport.IsOrthoRectVisible,
      Viewport.OrthoToScreen, Viewport.getCameraOffset, left, center] <;>
    norm_num [show Int.tdiv 800 2 = 400 from rfl, show Int.tdiv 600 2 = 300 from rfl,
      show Int.tdiv 400 2 = 200 from rfl]

/-- C1 amended: alignment transitions never change defaultScreenRect, and
IsOrthoRectVisible always takes its comparison bounds from that unchanged
default rectangle; the corner screen coordinates themselves, however, are
computed through the current aligned screenRect, so the returned boolean
is not alignment-independent. -/
theorem culling_bounds_use_default_rect (v : Viewport) (ops : List AlignOp)
    (x1 y1 x2 y2 : ℚ) :
    (applyAligns v ops).defaultScreenRect = v.defaultScreenRect ∧
    ((applyAligns v ops).IsOrthoRectVisible x1 y1 x2 y2 = false ↔
      ((applyAligns v ops).OrthoToScreen x1 y1).1 ≥ v.defaultScreenRect.Width ∨
      ((applyAligns v ops).OrthoToScreen x2 y2).1 < 0 ∨
      ((applyAligns v ops).OrthoToScreen x1 y1).2 ≥ v.defaultScreenRect.Height ∨
      ((applyAligns v ops).OrthoToScreen x2 y2).2 < 0) := by
  refine ⟨applyAligns_defaultScreenRect ops v, ?_⟩
  rw [← applyAligns_defaultScreenRect ops v]
  exact isOrthoRectVisible_eq_false_iff _ x1 y1 x2 y2

/-- The screen-rectangle derivation that actually holds in every reachable
state: top and height always match the default, center mode restores the
default rectangle exactly, left mode halves the width and shifts the left
edge by half the default width, while right mode halves the width but
keeps whichever left edge was current when it was entered. -/
def screenRectDerived (x y w h : Int) (v : Viewport) : Prop :=
  v.defaultScreenRect = ⟨x, y, w, h⟩ ∧
  v.screenRect.Top = y ∧
  v.screenRect.Height = h ∧
  ((v.align = center ∧ v.screenRect = ⟨x, y, w, h⟩) ∨
   (v.align = left ∧ v.screenRect.Width = Int.tdiv w 2 ∧
     v.screenRect.Left = x + Int.tdiv w 2) ∨
   (v.align = right ∧ v.screenRect.Width = Int.tdiv w 2 ∧
     (v.screenRect.Left = x ∨ v.screenRect.Left = x + Int.tdiv w 2)))

lemma screenRectDerived_applyAlign (x y w h : Int) (v : Viewport)
    (op : AlignOp) (hv : screenRectDerived x y w h v) :
    screenRectDerived x y w h (applyAlign v op) := by
  obtain ⟨hd, ht, hh, hcase⟩ := hv
  cases op
  case opLeft =>
    show screenRectDerived x y w h v.toLeft
    unfold Viewport.toLeft
    split
    · exact ⟨hd, ht, hh, hcase⟩
    · exact ⟨hd, ht, hh, Or.inr (Or.inl ⟨rfl, by simp [hd], by simp [hd]⟩)⟩
  case opRight =>
    show screenRectDerived x y w h v.toRight
    unfold Viewport.toRight
    split
    · exact ⟨hd, ht, hh, hcase⟩
    case isFalse hr =>
      refine ⟨hd, ht, hh, Or.inr (Or.inr ⟨rfl, by simp [hd], ?_⟩)⟩
      rcases hcase with ⟨_, hrect⟩ | ⟨_, _, hleft⟩ | ⟨hal, _, _⟩
      · exact Or.inl (by rw [hrect])
      · exact Or.inr hleft
      · exact absurd hal hr
  case opReset =>
    show screenRectDerived x y w h v.resetAlign
    unfold Viewport.resetAlign
    split
    · exact ⟨hd, ht, hh, hcase⟩
    · exact ⟨hd, ht, hh, Or.inl ⟨rfl, by simp [hd, ht, hh]⟩⟩

lemma screenRectDerived_applyAligns (x y w h : Int) (ops : List AlignOp) :
    ∀ v : Viewport, screenRectDerived x y w h v →
      screenRectDerived x y w h (applyAligns v ops) := by
  induction ops with
  | nil =>
    intro v hv
    exact hv
  | cons op ops ih =>
    intro v hv
    exact ih _ (screenRectDerived_applyAlign x y w h v op hv)

/-- Counterexample to C2: after toLeft then toRight from construction the
viewport is in right mode but its screenRect.Left is 400, not the default
left edge 0, because toRight never rewrites the left edge; so screenRect
is not a function of defaultScreenRect and align alone. -/
theorem toRight_keeps_stale_left_edge :
    (applyAligns (NewViewport 0 0 800 600) [AlignOp.opLeft, AlignOp.opRight]).align
        = right ∧
    (applyAligns (NewViewport 0 0 800 600) [AlignOp.opLeft, AlignOp.opRight]).screenRect.Left
        = 400 ∧
    (applyAligns (NewViewport 0 0 800 600) [AlignOp.opLeft, AlignOp.opRight]).defaultScreenRect.Left
        = 0 ∧
    (applyAligns (NewViewport 0 0 800 600) [AlignOp.opLeft, AlignOp.opRight]).screenRect.Left
        ≠ (applyAligns (NewViewport 0 0 800 600) [AlignOp.opLeft, AlignOp.opRight]).defaultScreenRect.Left := by
  refine ⟨?_, ?_, ?_, ?_⟩ <;>
    simp [applyAligns, applyAlign, NewViewport, Viewport.toLeft, Viewport.toRight,
      left, right, center] <;>
    decide

/-- C2 amended: in every state reachable by alignment transitions from
construction, the default rectangle is fixed, screenRect keeps the default
top and height, center mode restores the default rectangle, left mode has
half width and a left edge shifted by half the default width, and right
mode has half width with a left edge that is either the default one or the
shifted one, depending on the mode it was entered from. -/
theorem screenRect_derivation_reachable (x y w h : Int) (ops : List AlignOp) :
    screenRectDerived x y w h (applyAligns (NewViewport x y w h) ops) :=
  screenRectDerived_applyAligns x y w h ops (NewViewport x y w h)
    ⟨rfl, rfl, rfl, Or.inl ⟨rfl, rfl⟩⟩

end D2
